import Mathlib

/-!
# Verification of the casual-games recently-played tracker and catalog glue

Shallow embedding of the repository's core logic:

* `Game`, the catalog record (spec §3; the static catalog data file is not
  part of the sources, so the record shape follows the spec's field list).
* The Recently-Played Tracker (`getRecentlyPlayed` / `addToRecentlyPlayed`
  over a client-local storage state).  The file `app/utils/localStorage.ts`
  that implements these is not under `src/`; both operations are modelled
  from the spec (§4.2), as marked on each definition.
* The catalog-resolution effect of the home view
  (`src/unnamed/part_000`, lines 22–28), the featured filter of the home
  loader (`src/unnamed/part_000`, lines 12–15), and the game-detail loader
  (`src/app/routes/games.$gameId.tsx`, lines 8–14), all translated from the
  source.
-/

/-- Modelled from the spec: the Game record of §3 (the catalog data module
`~/data/games` is not under `src/`).  Display-only numeric fields are kept
as `Nat`; only `id` and `featured` are load-bearing for the claims. -/
structure Game where
  id : String
  slug : String
  title : String
  category : String
  tags : List String
  description : String
  thumbnail : String
  rating : Nat
  plays : Nat
  featured : Bool
  releaseDate : String
deriving DecidableEq, Repr

/-- Modelled from the spec: the single persisted storage value (§6): a
serialized JSON array of strings.  The serialized form is abstracted into
whether the value is absent, parses as a string sequence, or fails to
parse (`corrupt` keeps the unparsable raw text). -/
inductive StoredValue where
  | absent : StoredValue
  | ids : List String → StoredValue
  | corrupt : String → StoredValue
deriving DecidableEq, Repr

/-- Modelled from the spec: client-local storage, which may be unavailable
(disabled/blocked persistent storage, §4.2 failure semantics). -/
inductive Storage where
  | unavailable : Storage
  | available : StoredValue → Storage
deriving DecidableEq, Repr

/-- A fresh store: storage works but no value has ever been persisted. -/
def freshStore : Storage := Storage.available StoredValue.absent

/-- Modelled from the spec: the maximum capacity of the recently-played
list, "a small constant, e.g. 10" (§3 invariant 2, §9 open question). -/
def maxRecentlyPlayed : Nat := 10

/-- Modelled from the spec: the identifier sequence a read of the store
yields — the parsed list when the value parses as a string sequence, and
the empty sequence when the key is absent, the value is corrupt, or
storage is unavailable (§4.2, §6, §7). -/
def readIds : Storage → List String
  | Storage.unavailable => []
  | Storage.available StoredValue.absent => []
  | Storage.available (StoredValue.ids l) => l
  | Storage.available (StoredValue.corrupt _) => []

/-- Modelled from the spec: `getRecentlyPlayed` of `app/utils/localStorage.ts`
(not under `src/`); reads the persisted identifier sequence, falling back
to the empty sequence (§4.2 `list`, first step). -/
def getRecentlyPlayed (s : Storage) : List String := readIds s

/-- Modelled from the spec: `addToRecentlyPlayed` of
`app/utils/localStorage.ts` (not under `src/`); §4.2 `record(gameId)`:
read the current persisted sequence (empty if none/corrupt); remove
`gameId` if already present anywhere; insert it at the front; truncate to
the maximum capacity; write the result back.  When storage is unavailable
the operation degrades to a no-op instead of raising. -/
def addToRecentlyPlayed (gameId : String) (s : Storage) : Storage :=
  match s with
  | Storage.unavailable => Storage.unavailable
  | Storage.available v =>
      Storage.available (StoredValue.ids
        ((gameId :: (readIds (Storage.available v)).filter
            (fun id => id != gameId)).take maxRecentlyPlayed))

/-- Recording a whole sequence of identifiers, first element first. -/
def recordAll (gameIds : List String) (s : Storage) : Storage :=
  gameIds.foldl (fun acc g => addToRecentlyPlayed g acc) s

/-- Catalog lookup, as written in the sources:
`games.find((g) => g.id === params.gameId)` in
`src/app/routes/games.$gameId.tsx` line 9 and
`games.find(game => game.id === id)` in `src/unnamed/part_000` line 25. -/
def findById (catalog : List Game) (id : String) : Option Game :=
  catalog.find? (fun game => game.id == id)

/-- From `src/unnamed/part_000` lines 23–27: resolve each recent id against
the catalog and keep the defined results —
`recentGameIds.map(id => games.find(game => game.id === id))
  .filter(game => game !== undefined)`. -/
def resolveRecentlyPlayed (catalog : List Game) (recentGameIds : List String) :
    List Game :=
  (recentGameIds.map (fun id => catalog.find? (fun game => game.id == id))).filterMap
    (fun x => x)

/-- The home view's recently-played read (`src/unnamed/part_000` lines
22–28): read the persisted ids, resolve them, and touch storage only by
reading — the storage component of the result is the input state. -/
def listRecentlyPlayed (catalog : List Game) (s : Storage) :
    List Game × Storage :=
  (resolveRecentlyPlayed catalog (getRecentlyPlayed s), s)

/-- From `src/app/routes/games.$gameId.tsx` lines 8–14: the detail-page
loader; a missing catalog entry throws a 404 response, a hit returns the
game. -/
def gameDetailLoader (catalog : List Game) (gameId : String) :
    Except Nat Game :=
  match catalog.find? (fun g => g.id == gameId) with
  | some game => Except.ok game
  | none => Except.error 404

/-- From `src/unnamed/part_000` lines 12–15: the home loader's featured
selection — `games.filter((game) => game.featured).slice(0, 3)`. -/
def homeLoaderFeatured (catalog : List Game) : List Game :=
  (catalog.filter (fun game => game.featured)).take 3

/-- Modelled from the spec: §4.1 `filterFeatured(limit)` — up to `limit`
records whose `featured` flag is true, in catalog order (the sources only
contain its instantiation at limit 3 in the home loader). -/
def filterFeatured (limit : Nat) (catalog : List Game) : List Game :=
  (catalog.filter (fun game => game.featured)).take limit

/-- A catalog record with the given identifier and featured flag; the
remaining display fields are inert. -/
def mkGame (id : String) (featured : Bool) : Game :=
  { id := id, slug := id, title := id, category := "", tags := [],
    description := "", thumbnail := "", rating := 0, plays := 0,
    featured := featured, releaseDate := "" }

/-! ## Helper lemmas -/

/-- The resolution of the home view is the `filterMap` of catalog lookup. -/
theorem resolveRecentlyPlayed_eq_filterMap (catalog : List Game)
    (ids : List String) :
    resolveRecentlyPlayed catalog ids = ids.filterMap (findById catalog) := by
  induction ids with
  | nil => rfl
  | cons i rest ih =>
      simp only [resolveRecentlyPlayed, List.map_cons, List.filterMap_cons] at *
      cases h : catalog.find? (fun game => game.id == i) with
      | none => simp only [findById, h]; exact ih
      | some g => simp only [findById, h]; rw [ih]

/-- One `record` step on available storage: the new persisted sequence is
the recorded id in front of what survives of the old one. -/
theorem readIds_record (g : String) (v : StoredValue) :
    readIds (addToRecentlyPlayed g (Storage.available v)) =
      g :: ((readIds (Storage.available v)).filter
        (fun id => id != g)).take (maxRecentlyPlayed - 1) := by
  show ((g :: (readIds (Storage.available v)).filter
      (fun id => id != g)).take maxRecentlyPlayed) = _
  rw [show maxRecentlyPlayed = 9 + 1 from rfl, List.take_succ_cons]

/-- The recorded id does not occur in the surviving tail. -/
theorem not_mem_filter_tail (g : String) (l : List String) (n : Nat) :
    g ∉ (l.filter (fun id => id != g)).take n := by
  intro hmem
  have hf := List.mem_of_mem_take hmem
  have := (List.mem_filter.mp hf).2
  simp at this

/-! ## C9: storage unavailable degrades gracefully -/

/-- C9: with storage unavailable, `record` is a no-op on the state and
`list` returns the empty sequence; both are total, so neither propagates
an error. -/
theorem storage_unavailable_degrades (catalog : List Game) (g : String) :
    addToRecentlyPlayed g Storage.unavailable = Storage.unavailable ∧
    (listRecentlyPlayed catalog Storage.unavailable).1 = [] := by
  exact ⟨rfl, rfl⟩

/-! ## C8: list is a pure read -/

/-- C8: `list` on a fresh store returns the empty sequence, and a second
`list` immediately after a first (on the storage state the first call
leaves behind) returns the identical result. -/
theorem list_pure_read (catalog : List Game) (s : Storage) :
    (listRecentlyPlayed catalog freshStore).1 = [] ∧
    (listRecentlyPlayed catalog ((listRecentlyPlayed catalog s).2)).1 =
      (listRecentlyPlayed catalog s).1 := by
  exact ⟨rfl, rfl⟩

/-! ## C4: corrupt persisted value falls back to empty -/

/-- C4: on a persisted value that does not parse as a string sequence,
`record g` succeeds (it is total) and establishes the fresh single-entry
list `[g]`, and `list` returns the empty sequence. -/
theorem corrupt_storage_fallback (raw g : String) (catalog : List Game) :
    addToRecentlyPlayed g (Storage.available (StoredValue.corrupt raw)) =
      Storage.available (StoredValue.ids [g]) ∧
    (listRecentlyPlayed catalog
      (Storage.available (StoredValue.corrupt raw))).1 = [] := by
  exact ⟨rfl, rfl⟩

/-! ## C1: record deduplicates and moves to the front -/

/-- C1: after `record g` on any persisted value, the stored sequence
contains `g` exactly once and at the front; in particular
`record "a"; record "b"; record "a"` stores `["a", "b"]`. -/
theorem record_dedups_to_front (g : String) (v : StoredValue) :
    (readIds (addToRecentlyPlayed g (Storage.available v))).count g = 1 ∧
    (readIds (addToRecentlyPlayed g (Storage.available v))).head? = some g ∧
    readIds (addToRecentlyPlayed "a" (addToRecentlyPlayed "b"
      (addToRecentlyPlayed "a" freshStore))) = ["a", "b"] := by
  rw [readIds_record]
  refine ⟨?_, rfl, by decide⟩
  rw [List.count_cons_self, List.count_eq_zero.mpr (not_mem_filter_tail g _ _)]

/-! ## C5: detail loader 404 exactly on a catalog miss -/

/-- C5: the game-detail loader fails with 404 exactly when no catalog game
carries the requested id; on a hit it returns a catalog game with that id,
and a game with that id guarantees a successful result. -/
theorem detail_loader_not_found_iff (catalog : List Game) (gameId : String) :
    (gameDetailLoader catalog gameId = Except.error 404 ↔
       ∀ g ∈ catalog, g.id ≠ gameId) ∧
    (∀ g, gameDetailLoader catalog gameId = Except.ok g →
       g ∈ catalog ∧ g.id = gameId) ∧
    ((∃ g ∈ catalog, g.id = gameId) →
       ∃ g, gameDetailLoader catalog gameId = Except.ok g) := by
  unfold gameDetailLoader
  cases hf : catalog.find? (fun g => g.id == gameId) with
  | none =>
      have hall : ∀ g ∈ catalog, g.id ≠ gameId := by
        intro g hg
        have := List.find?_eq_none.mp hf g hg
        simpa using this
      refine ⟨⟨fun _ => hall, fun _ => rfl⟩, ?_, ?_⟩
      · intro g hg
        exact absurd hg (by simp)
      · rintro ⟨g, hg, hid⟩
        exact absurd hid (hall g hg)
  | some game =>
      have hid : game.id = gameId := by
        have := List.find?_some hf
        simpa using this
      have hmem : game ∈ catalog := List.mem_of_find?_eq_some hf
      refine ⟨⟨fun h => ?_, fun hall => ?_⟩, ?_, fun _ => ⟨game, rfl⟩⟩
      · exact absurd h (by simp)
      · exact absurd hid (hall game hmem)
      · intro g hg
        have : game = g := by simpa using hg
        exact this ▸ ⟨hmem, hid⟩

/-- C5 witness: a one-game catalog queried at its own id. -/
theorem detail_loader_not_found_iff_witness :
    (gameDetailLoader [mkGame "a" true] "a" = Except.error 404 ↔
       ∀ g ∈ [mkGame "a" true], g.id ≠ "a") ∧
    (∀ g, gameDetailLoader [mkGame "a" true] "a" = Except.ok g →
       g ∈ [mkGame "a" true] ∧ g.id = "a") ∧
    ((∃ g ∈ [mkGame "a" true], g.id = "a") →
       ∃ g, gameDetailLoader [mkGame "a" true] "a" = Except.ok g) :=
  detail_loader_not_found_iff [mkGame "a" true] "a"

/-! ## C6: featured filter of the home loader -/

/-- C6: `filterFeatured limit` yields at most `limit` games, all featured,
as a subsequence of the catalog (insertion order, no re-sorting); when
fewer than `limit` featured games exist it yields all of them; the home
loader is its instantiation at limit 3. -/
theorem filterFeatured_spec (limit : Nat) (catalog : List Game) :
    (filterFeatured limit catalog).length ≤ limit ∧
    (∀ g ∈ filterFeatured limit catalog, g.featured = true) ∧
    List.Sublist (filterFeatured limit catalog) catalog ∧
    ((catalog.filter (fun game => game.featured)).length < limit →
      filterFeatured limit catalog =
        catalog.filter (fun game => game.featured)) ∧
    homeLoaderFeatured catalog = filterFeatured 3 catalog := by
  refine ⟨?_, ?_, ?_, ?_, rfl⟩
  · unfold filterFeatured
    rw [List.length_take]
    exact min_le_left ..
  · intro g hgmem
    exact (List.mem_filter.mp (List.mem_of_mem_take hgmem)).2
  · exact (List.take_sublist _ _).trans (List.filter_sublist _)
  · intro hlt
    exact List.take_of_length_le (le_of_lt hlt)

/-- C6 witness: a two-game catalog with one featured game, limit 3. -/
theorem filterFeatured_spec_witness :
    (filterFeatured 3 [mkGame "a" true, mkGame "b" false]).length ≤ 3 ∧
    (∀ g ∈ filterFeatured 3 [mkGame "a" true, mkGame "b" false],
       g.featured = true) ∧
    List.Sublist (filterFeatured 3 [mkGame "a" true, mkGame "b" false])
      [mkGame "a" true, mkGame "b" false] ∧
    ((([mkGame "a" true, mkGame "b" false].filter
        (fun game => game.featured)).length < 3) →
      filterFeatured 3 [mkGame "a" true, mkGame "b" false] =
        [mkGame "a" true, mkGame "b" false].filter
          (fun game => game.featured)) ∧
    homeLoaderFeatured [mkGame "a" true, mkGame "b" false] =
      filterFeatured 3 [mkGame "a" true, mkGame "b" false] :=
  filterFeatured_spec 3 [mkGame "a" true, mkGame "b" false]

/-! ## C7: list never mutates storage, dangling entries remain -/

/-- C7: a `list` read returns the storage state unchanged — a dangling id
(one the catalog does not resolve) is still persisted afterwards, and
never appears among the ids of the returned games. -/
theorem list_no_storage_mutation (catalog : List Game) (s : Storage)
    (id : String) (hm : id ∈ readIds s) (hd : findById catalog id = none) :
    (listRecentlyPlayed catalog s).2 = s ∧
    id ∈ readIds ((listRecentlyPlayed catalog s).2) ∧
    id ∉ ((listRecentlyPlayed catalog s).1.map (fun g => g.id)) := by
  refine ⟨rfl, hm, ?_⟩
  intro hmem
  rw [show (listRecentlyPlayed catalog s).1 =
        resolveRecentlyPlayed catalog (readIds s) from rfl,
      resolveRecentlyPlayed_eq_filterMap] at hmem
  obtain ⟨g, hgmem, hgid⟩ := List.mem_map.mp hmem
  obtain ⟨i, _, hfind⟩ := List.mem_filterMap.mp hgmem
  have hgi : g.id = i := by
    have := List.find?_some hfind
    simpa using this
  rw [hgi] at hgid
  rw [hgid, hd] at hfind
  cases hfind

/-- C7 witness: an empty catalog with one persisted ghost id. -/
theorem list_no_storage_mutation_witness :
    ("ghost" ∈ readIds (Storage.available (StoredValue.ids ["ghost"])) ∧
     findById [] "ghost" = none) ∧
    ((listRecentlyPlayed []
        (Storage.available (StoredValue.ids ["ghost"]))).2 =
      Storage.available (StoredValue.ids ["ghost"]) ∧
     "ghost" ∈ readIds ((listRecentlyPlayed []
        (Storage.available (StoredValue.ids ["ghost"]))).2) ∧
     "ghost" ∉ (((listRecentlyPlayed []
        (Storage.available (StoredValue.ids ["ghost"]))).1).map
          (fun g => g.id))) :=
  ⟨⟨by decide, rfl⟩,
   list_no_storage_mutation [] (Storage.available (StoredValue.ids ["ghost"]))
     "ghost" (by decide) rfl⟩

/-! ## C10: the read path does not deduplicate -/

/-- C10: a persisted sequence holding the same resolvable id twice
resolves to a list holding the corresponding game in both stored
positions, so the game occurs at least twice. -/
theorem read_path_no_dedup (catalog : List Game) (i : String) (g : Game)
    (hres : findById catalog i = some g) (l1 l2 l3 : List String) :
    resolveRecentlyPlayed catalog (l1 ++ i :: l2 ++ i :: l3) =
      resolveRecentlyPlayed catalog l1 ++
        g :: (resolveRecentlyPlayed catalog l2 ++
          g :: resolveRecentlyPlayed catalog l3) ∧
    2 ≤ (resolveRecentlyPlayed catalog (l1 ++ i :: l2 ++ i :: l3)).count g := by
  have he : resolveRecentlyPlayed catalog (l1 ++ i :: l2 ++ i :: l3) =
      resolveRecentlyPlayed catalog l1 ++
        g :: (resolveRecentlyPlayed catalog l2 ++
          g :: resolveRecentlyPlayed catalog l3) := by
    simp [resolveRecentlyPlayed_eq_filterMap, List.filterMap_append,
      List.filterMap_cons, hres]
  refine ⟨he, ?_⟩
  rw [he]
  simp only [List.count_append, List.count_cons_self]
  omega

/-- C10 witness: a one-game catalog and the persisted sequence
`["a", "a"]`. -/
theorem read_path_no_dedup_witness :
    findById [mkGame "a" false] "a" = some (mkGame "a" false) ∧
    (resolveRecentlyPlayed [mkGame "a" false] ([] ++ "a" :: [] ++ "a" :: []) =
       resolveRecentlyPlayed [mkGame "a" false] [] ++
         mkGame "a" false :: (resolveRecentlyPlayed [mkGame "a" false] [] ++
           mkGame "a" false :: resolveRecentlyPlayed [mkGame "a" false] []) ∧
     2 ≤ (resolveRecentlyPlayed [mkGame "a" false]
       ([] ++ "a" :: [] ++ "a" :: [])).count (mkGame "a" false)) :=
  ⟨by decide,
   read_path_no_dedup [mkGame "a" false] "a" (mkGame "a" false)
     (by decide) [] [] []⟩

/-! ## C2: capacity bound and eviction of the oldest entry -/

/-- Taking `n` of an append is unchanged by pre-truncating the suffix. -/
theorem take_append_take {α : Type} (a b : List α) (n : Nat) :
    (a ++ b.take n).take n = (a ++ b).take n := by
  rw [List.take_append_eq_append_take, List.take_append_eq_append_take,
    List.take_take, Nat.min_eq_left (Nat.sub_le n a.length)]

/-- Recording duplicate-free ids over a short duplicate-free store keeps
the reversed ids in front of the old store, truncated to capacity. -/
theorem readIds_recordAll_nodup : ∀ gs l : List String,
    (gs.reverse ++ l).Nodup → l.length ≤ maxRecentlyPlayed →
    readIds (recordAll gs (Storage.available (StoredValue.ids l))) =
      (gs.reverse ++ l).take maxRecentlyPlayed := by
  intro gs
  induction gs with
  | nil =>
      intro l h hl
      simpa [recordAll, readIds] using (List.take_of_length_le hl).symm
  | cons g rest ih =>
      intro l h hl
      have hassoc : (g :: rest).reverse ++ l = rest.reverse ++ (g :: l) := by
        rw [List.reverse_cons, List.append_assoc]
        rfl
      rw [hassoc] at h ⊢
      have hg : g ∉ l := by
        have hgl := (List.nodup_append.mp h).2.1
        exact (List.nodup_cons.mp hgl).1
      have hfil : l.filter (fun id => id != g) = l :=
        List.filter_eq_self.mpr (fun a ha => by
          simp only [bne_iff_ne, ne_eq, decide_eq_true_eq]
          exact fun hag => hg (hag ▸ ha))
      have hstep : recordAll (g :: rest) (Storage.available (StoredValue.ids l)) =
          recordAll rest (Storage.available (StoredValue.ids
            ((g :: l).take maxRecentlyPlayed))) := by
        show recordAll rest (addToRecentlyPlayed g
          (Storage.available (StoredValue.ids l))) = _
        rw [addToRecentlyPlayed]
        show recordAll rest (Storage.available (StoredValue.ids
          ((g :: l.filter (fun id => id != g)).take maxRecentlyPlayed))) = _
        rw [hfil]
      have hsub : List.Sublist (rest.reverse ++ (g :: l).take maxRecentlyPlayed)
          (rest.reverse ++ (g :: l)) :=
        (List.take_sublist _ _).append_left _
      have hnd' : (rest.reverse ++ (g :: l).take maxRecentlyPlayed).Nodup :=
        h.sublist hsub
      have hlen' : ((g :: l).take maxRecentlyPlayed).length ≤ maxRecentlyPlayed := by
        rw [List.length_take]
        exact min_le_left ..
      rw [hstep, ih _ hnd' hlen', take_append_take]

/-- Recording duplicate-free ids on a fresh store persists their reverse,
truncated to capacity. -/
theorem readIds_recordAll_fresh (gs : List String) (h : gs.Nodup) :
    readIds (recordAll gs freshStore) =
      gs.reverse.take maxRecentlyPlayed := by
  cases gs with
  | nil => rfl
  | cons g rest =>
      have hstep : recordAll (g :: rest) freshStore =
          recordAll rest (Storage.available (StoredValue.ids [g])) := rfl
      have h2 : (rest.reverse ++ [g]).Nodup := by
        rw [← List.reverse_cons]
        exact (List.nodup_reverse).mpr h
      rw [hstep, readIds_recordAll_nodup rest [g] h2
        (by norm_num [maxRecentlyPlayed]), List.reverse_cons]

/-- A single record step leaves at most `maxRecentlyPlayed` entries. -/
theorem readIds_record_len (g : String) (s : Storage) :
    (readIds (addToRecentlyPlayed g s)).length ≤ maxRecentlyPlayed := by
  cases s with
  | unavailable => simp [addToRecentlyPlayed, readIds]
  | available v =>
      show ((g :: (readIds (Storage.available v)).filter
        (fun id => id != g)).take maxRecentlyPlayed).length ≤ maxRecentlyPlayed
      rw [List.length_take]
      exact min_le_left ..

/-- Any record sequence keeps the store within capacity. -/
theorem readIds_recordAll_len (gs : List String) : ∀ s : Storage,
    (readIds s).length ≤ maxRecentlyPlayed →
    (readIds (recordAll gs s)).length ≤ maxRecentlyPlayed := by
  induction gs with
  | nil => exact fun s hs => hs
  | cons g rest ih => exact fun s _ => ih _ (readIds_record_len g s)

/-- C2: no record sequence from an empty store ever exceeds capacity, and
recording capacity+1 distinct identifiers leaves exactly capacity entries,
with exactly the least-recently-recorded (first) identifier evicted. -/
theorem record_capacity_bound (gs : List String) (hnd : gs.Nodup)
    (hlen : gs.length = maxRecentlyPlayed + 1) :
    (∀ gs' : List String,
       (readIds (recordAll gs' freshStore)).length ≤ maxRecentlyPlayed) ∧
    (readIds (recordAll gs freshStore)).length = maxRecentlyPlayed ∧
    (∀ g ∈ gs, (g ∈ readIds (recordAll gs freshStore) ↔
       gs.head? ≠ some g)) := by
  refine ⟨fun gs' => readIds_recordAll_len gs' freshStore (by
    simp [freshStore, readIds]), ?_, ?_⟩
  · rw [readIds_recordAll_fresh gs hnd, List.length_take,
      List.length_reverse, hlen]
    simp [maxRecentlyPlayed]
  · intro g hg
    rw [readIds_recordAll_fresh gs hnd]
    cases gs with
    | nil => cases hg
    | cons g0 rest =>
        have hr : rest.reverse.length = maxRecentlyPlayed := by
          rw [List.length_reverse]
          simpa using hlen
        have htake : (g0 :: rest).reverse.take maxRecentlyPlayed =
            rest.reverse := by
          rw [List.reverse_cons, ← hr, List.take_left]
        rw [htake]
        have hg0 : g0 ∉ rest := (List.nodup_cons.mp hnd).1
        simp only [List.head?_cons, ne_eq, Option.some.injEq,
          List.mem_reverse]
        constructor
        · intro hmem heq
          exact hg0 (heq ▸ hmem)
        · intro hne
          rcases List.mem_cons.mp hg with h0 | h1
          · exact absurd h0.symm hne
          · exact h1

/-- The eleven distinct identifiers of the C2 witness. -/
def elevenIds : List String :=
  ["g0", "g1", "g2", "g3", "g4", "g5", "g6", "g7", "g8", "g9", "g10"]

/-- C2 witness: eleven distinct identifiers recorded in order. -/
theorem record_capacity_bound_witness :
    (elevenIds.Nodup ∧ elevenIds.length = maxRecentlyPlayed + 1) ∧
    ((∀ gs' : List String,
        (readIds (recordAll gs' freshStore)).length ≤ maxRecentlyPlayed) ∧
     (readIds (recordAll elevenIds freshStore)).length = maxRecentlyPlayed ∧
     (∀ g ∈ elevenIds, (g ∈ readIds (recordAll elevenIds freshStore) ↔
        elevenIds.head? ≠ some g))) :=
  ⟨⟨by decide, by decide⟩,
   record_capacity_bound elevenIds (by decide) (by decide)⟩

/-! ## C3: list resolves the stored ids in stored order -/

/-- C3: for every catalog and every state, `list` returns exactly the
catalog resolution of the persisted sequence — each stored id looked up
with `findById`, the misses dropped, the order untouched; and whenever
the catalog resolves "x" and "y", `record "x"; record "y"` from a fresh
store then `list` yields the two resolved games, most recent first. -/
theorem list_resolves_in_order (catalog : List Game) (s : Storage) :
    (listRecentlyPlayed catalog s).1 =
      (readIds s).filterMap (findById catalog) ∧
    (∀ gx gy : Game, findById catalog "x" = some gx →
      findById catalog "y" = some gy →
      (listRecentlyPlayed catalog
         (addToRecentlyPlayed "y" (addToRecentlyPlayed "x" freshStore))).1 =
        [gy, gx]) := by
  constructor
  · exact resolveRecentlyPlayed_eq_filterMap catalog (readIds s)
  · intro gx gy hx hy
    have hids : readIds
        (addToRecentlyPlayed "y" (addToRecentlyPlayed "x" freshStore)) =
        ["y", "x"] := by decide
    show resolveRecentlyPlayed catalog (getRecentlyPlayed
      (addToRecentlyPlayed "y" (addToRecentlyPlayed "x" freshStore))) =
      [gy, gx]
    rw [resolveRecentlyPlayed_eq_filterMap, getRecentlyPlayed, hids]
    simp [List.filterMap_cons, hx, hy]

/-- C3 witness: a catalog resolving both "x" and "y", with the example's
inner hypotheses discharged at the concrete catalog. -/
theorem list_resolves_in_order_witness :
    ((listRecentlyPlayed [mkGame "x" false, mkGame "y" false] freshStore).1 =
       (readIds freshStore).filterMap
         (findById [mkGame "x" false, mkGame "y" false]) ∧
     (∀ gx gy : Game,
        findById [mkGame "x" false, mkGame "y" false] "x" = some gx →
        findById [mkGame "x" false, mkGame "y" false] "y" = some gy →
        (listRecentlyPlayed [mkGame "x" false, mkGame "y" false]
           (addToRecentlyPlayed "y" (addToRecentlyPlayed "x" freshStore))).1 =
          [gy, gx])) ∧
    (listRecentlyPlayed [mkGame "x" false, mkGame "y" false]
       (addToRecentlyPlayed "y" (addToRecentlyPlayed "x" freshStore))).1 =
      [mkGame "y" false, mkGame "x" false] :=
  ⟨list_resolves_in_order [mkGame "x" false, mkGame "y" false] freshStore,
   (list_resolves_in_order [mkGame "x" false, mkGame "y" false]
      freshStore).2 (mkGame "x" false) (mkGame "y" false)
     (by decide) (by decide)⟩
